import Mathlib

/-!
Shallow embedding of the alaala memory engine (Go) for specification checking.

Conventions of the embedding:
* Go strings are byte sequences; where byte-level operations matter
  (`toLower`, `contains`) they are modelled as `List Nat` of byte values.
  Opaque identifiers (memory ids, project ids, method names) that are only
  compared for equality/order are modelled as Lean `String`.
* Go `float64` scores are modelled as exact rationals `ℚ`.
* Go `time.Time` values are modelled by their Unix epoch (`Int`); the zero
  `time.Time` has `Unix() = -62135596800`.
* Fallible collaborator calls are modelled as `Option`/`Except` valued
  environment functions.
-/

namespace Alaala

/-- A Go string viewed as its byte sequence. -/
abbrev Str := List Nat

/-- Byte-wise ASCII lowercasing of one byte, from `toLower`'s loop body in
`internal/memory/engine.go`: bytes in `'A'..'Z'` (65..90) get `'a'-'A'` (32)
added, all others pass through. -/
def lowerByte (c : Nat) : Nat :=
  if 65 ≤ c ∧ c ≤ 90 then c + 32 else c

/-- `toLower` from `internal/memory/engine.go`: builds a same-length byte
string by lowercasing each byte. -/
def toLower (s : Str) : Str :=
  s.map lowerByte

/-- `contains` from `internal/memory/engine.go`: returns false when the
needle is longer than the haystack, otherwise checks every window
`haystack[i : i+len(needle)]` for `i` in `0 .. len(haystack)-len(needle)`
(inclusive) for equality with the needle. -/
def contains (haystack needle : Str) : Bool :=
  if needle.length > haystack.length then false
  else (List.range (haystack.length - needle.length + 1)).any
    fun i => decide ((haystack.drop i).take needle.length = needle)

/-- `checkTriggerMatch` from `internal/memory/engine.go`: lowercases the
query once, then returns true as soon as some trigger phrase, lowercased,
is contained in it. -/
def checkTriggerMatch (query : Str) (triggers : List Str) : Bool :=
  let queryLower := toLower query
  triggers.any fun trigger => contains queryLower (toLower trigger)

/-- Unix epoch of Go's zero `time.Time` (year 1, Jan 1, UTC). -/
def goZeroTimeUnix : Int := -62135596800

/-- The `Memory` struct from `internal/memory/types.go`. Timestamps are
modelled by their Unix epochs; an unset `time.Time` is `goZeroTimeUnix`. -/
structure Memory where
  id : String
  projectId : String
  sessionId : String
  content : Str
  importance : ℚ
  semanticTags : List String
  contextType : String
  triggerPhrases : List Str
  questionTypes : List String
  temporalRelevance : String
  actionRequired : Bool
  reasoning : String
  createdAt : Int := goZeroTimeUnix
  updatedAt : Int := goZeroTimeUnix
  deriving DecidableEq, Repr

/-- `SearchResult` from `internal/memory/types.go`. -/
structure SearchResult where
  memory : Memory
  similarityScore : ℚ
  relevanceScore : ℚ
  triggerMatched : Bool
  deriving DecidableEq, Repr

/-- One element of the vector store's reply (`storage.VectorSearchResult`):
an id and a distance. The metadata field plays no role in `SearchMemories`. -/
structure VectorSearchResult where
  id : String
  distance : ℚ
  deriving DecidableEq, Repr

/-- `calculateRelevanceScore` from `internal/memory/engine.go`:
`0.6·similarity + 0.3·importance`, plus `0.2` on a trigger match and `0.1`
when action is required, then capped at `1.0` (no lower cap). -/
def calculateRelevanceScore (mem : Memory) (similarity : ℚ)
    (triggerMatched : Bool) : ℚ :=
  let score := similarity * 0.6 + mem.importance * 0.3
  let score := if triggerMatched then score + 0.2 else score
  let score := if mem.actionRequired then score + 0.1 else score
  if score > 1.0 then 1.0 else score

/-- Inner loop of `sortByRelevance` (the pass for a fixed `i`): scans the
elements after the pivot, swapping the pivot with any element whose
relevance score is strictly greater. Returns the final pivot together with
the rearranged remainder. -/
def innerPass (x : SearchResult) : List SearchResult → SearchResult × List SearchResult
  | [] => (x, [])
  | y :: ys =>
    if x.relevanceScore < y.relevanceScore then
      let p := innerPass y ys
      (p.1, x :: p.2)
    else
      let p := innerPass x ys
      (p.1, y :: p.2)

/-- The outer loop of `sortByRelevance`: after the pass for index `i`, the
loop continues on the elements after position `i`. `fuel` counts the
remaining outer iterations; the Go loop runs once per element, so the loop
is entered with `fuel = length` and, since `innerPass` preserves length,
the `fuel = 0` fallback (returning the remainder unchanged) is never
reached when the fuel is at least the length of the list. -/
def sortLoop : Nat → List SearchResult → List SearchResult
  | _, [] => []
  | 0, l => l
  | fuel + 1, x :: xs =>
    let p := innerPass x xs
    p.1 :: sortLoop fuel p.2

/-- `sortByRelevance` from `internal/memory/engine.go`: the nested
exchange-sort loop, swapping `results[i]` with any later strictly
higher-scoring element. -/
def sortByRelevance (results : List SearchResult) : List SearchResult :=
  sortLoop results.length results

/-- `SearchMemories` from `internal/memory/engine.go`, parameterised by the
collaborators' behaviour: `getMemory` models hydration from the relational
store (`none` covers both lookup error and missing row, which the loop
skips), `vectorResults` is what the vector store returned. For each
candidate: similarity `= 1 - distance`, trigger match, relevance score;
then the exchange sort and truncation to `limit` (defaulted to 5 when 0). -/
def searchMemories (getMemory : String → Option Memory) (query : Str)
    (limitArg : Nat) (vectorResults : List VectorSearchResult) :
    List SearchResult :=
  let limit := if limitArg = 0 then 5 else limitArg
  let results := vectorResults.filterMap fun vr =>
    (getMemory vr.id).map fun mem =>
      let similarityScore := 1 - vr.distance
      let triggerMatched := checkTriggerMatch query mem.triggerPhrases
      let relevanceScore := calculateRelevanceScore mem similarityScore triggerMatched
      { memory := mem
        similarityScore := similarityScore
        relevanceScore := relevanceScore
        triggerMatched := triggerMatched }
  let sorted := sortByRelevance results
  sorted.take limit

/-- `formatDuration` from `internal/memory/engine.go`, modelled at
whole-second granularity: `d` is a non-negative duration in seconds.
Go's `int(d.Minutes())`, `int(d.Hours())`, `int(d.Hours()/24)` truncate
toward zero, which for whole-second non-negative durations coincides with
integer division by 60, 3600 and 86400. -/
def formatDuration (d : Nat) : String :=
  if d < 60 then "just now"
  else if d < 3600 then
    let mins := d / 60
    if mins = 1 then "1 minute ago" else toString mins ++ " minutes ago"
  else if d < 86400 then
    let hours := d / 3600
    if hours = 1 then "1 hour ago" else toString hours ++ " hours ago"
  else
    let days := d / 86400
    if days = 1 then "1 day ago"
    else if days < 7 then toString days ++ " days ago"
    else
      let weeks := days / 7
      if weeks = 1 then "1 week ago"
      else if weeks < 4 then toString weeks ++ " weeks ago"
      else
        let months := days / 30
        if months = 1 then "1 month ago"
        else toString months ++ " months ago"

/-! ## Protocol dispatcher (`internal/mcp/server.go`) -/

/-- A JSON-RPC request id is an arbitrary JSON value in the source
(`interface{}`); it is modelled as an optional integer, `none` standing for
JSON null / absent. -/
abbrev RpcId := Option Int

/-- `JSONRPCRequest` from `internal/mcp/server.go`; `params` stands for the
raw params payload. -/
structure JSONRPCRequest where
  id : RpcId
  method : String
  params : String
  deriving DecidableEq, Repr

/-- `JSONRPCError` from `internal/mcp/server.go` (the optional `data` field
carries no protocol meaning and is elided). -/
structure JSONRPCError where
  code : Int
  message : String
  deriving DecidableEq, Repr

/-- `JSONRPCResponse` from `internal/mcp/server.go`; `result` stands for the
serialized result payload. -/
structure JSONRPCResponse where
  id : RpcId
  result : Option String
  error : Option JSONRPCError
  deriving DecidableEq, Repr

/-- `sendError` from `internal/mcp/server.go`: builds the error response. -/
def sendError (id : RpcId) (code : Int) (message : String) : JSONRPCResponse :=
  { id := id, result := none, error := some { code := code, message := message } }

/-- `sendResult` from `internal/mcp/server.go`: builds the success response. -/
def sendResult (id : RpcId) (result : String) : JSONRPCResponse :=
  { id := id, result := some result, error := none }

/-- The handler table built by `registerHandlers`, abstracted: a partial map
from method name to a handler that either fails or produces a result. -/
abbrev Handlers := String → Option (String → Except String String)

/-- `handleRequest` from `internal/mcp/server.go`: unknown method answers
`-32601`, a failing handler answers `-32603`, otherwise the result is sent
with the request's correlation id. -/
def handleRequest (handlers : Handlers) (req : JSONRPCRequest) : JSONRPCResponse :=
  match handlers req.method with
  | none => sendError req.id (-32601) "Method not found"
  | some h =>
    match h req.params with
    | .error _ => sendError req.id (-32603) "Internal error"
    | .ok r => sendResult req.id r

/-- One inbound line of `Run`'s read loop, after the `json.Unmarshal`
attempt: either it failed to parse, or it yielded a request. -/
inductive InLine where
  | malformed
  | valid (req : JSONRPCRequest)
  deriving DecidableEq, Repr

/-- The body of `Run`'s loop in `internal/mcp/server.go` for one line: a
parse failure sends one `-32700` error with a nil id and the loop
continues; a parsed request is dispatched. -/
def dispatchLine (handlers : Handlers) (l : InLine) : JSONRPCResponse :=
  match l with
  | .malformed => sendError none (-32700) "Parse error"
  | .valid req => handleRequest handlers req

/-- `Run` from `internal/mcp/server.go` over a finite inbound stream (the
lines read before EOF): each line produces exactly one response, in order. -/
def runLoop (handlers : Handlers) (lines : List InLine) : List JSONRPCResponse :=
  lines.map (dispatchLine handlers)

/-! ## Graph traverser (`internal/storage/graph.go`) -/

/-- `storage.Relationship` as used by the traversal: the two endpoint ids
and the edge type. -/
structure Relationship where
  fromMemoryID : String
  toMemoryID : String
  relType : String
  deriving DecidableEq, Repr

/-- The mutable locals of `ExpandMemories`' BFS, plus an instrumentation
field `calls` recording every id passed to the `GetRelationships`
collaborator (used only to state the no-collaborator-call property). -/
structure BfsState where
  visited : List String
  result : List String
  nextLevel : List String
  calls : List String
  deriving DecidableEq, Repr

/-- The edge-processing step inside `ExpandMemories`: resolve the far end of
the edge (`ToMemoryID`, unless that equals the current node, in which case
`FromMemoryID`), and if it is unvisited, record it in the visited set, the
result, and the next frontier. -/
def visitRel (memID : String) (st : BfsState) (rel : Relationship) : BfsState :=
  let relatedID := if rel.toMemoryID = memID then rel.fromMemoryID else rel.toMemoryID
  if relatedID ∈ st.visited then st
  else { st with
    visited := st.visited ++ [relatedID]
    result := st.result ++ [relatedID]
    nextLevel := st.nextLevel ++ [relatedID] }

/-- The per-node step of `ExpandMemories`: fetch the node's relationships
(`none` models a fetch error, which is swallowed and contributes no edges)
and fold the edge step over them. The queried id is recorded in `calls`. -/
def processNode (getRels : String → Option (List Relationship))
    (st : BfsState) (memID : String) : BfsState :=
  let st := { st with calls := st.calls ++ [memID] }
  match getRels memID with
  | none => st
  | some rels => rels.foldl (visitRel memID) st

/-- The depth-bounded level loop of `ExpandMemories`: runs at most `depth`
levels, stopping early on an empty frontier; each level starts with a fresh
`nextLevel`. -/
def bfsLoop (getRels : String → Option (List Relationship)) :
    Nat → List String → BfsState → BfsState
  | 0, _, st => st
  | d + 1, currentLevel, st =>
    if currentLevel.isEmpty then st
    else
      let st2 := currentLevel.foldl (processNode getRels) { st with nextLevel := [] }
      bfsLoop getRels d st2.nextLevel st2

/-- `ExpandMemories` from `internal/storage/graph.go`, parameterised by the
relationship-fetch collaborator. Returns the discovered ids together with
the instrumented list of collaborator calls. A zero depth or empty seed set
returns immediately; otherwise the visited set is seeded with the inputs
and the BFS runs for `depth` levels. -/
def expandMemories (getRels : String → Option (List Relationship))
    (seedIDs : List String) (depth : Nat) : List String × List String :=
  if depth = 0 ∨ seedIDs.isEmpty then ([], [])
  else
    let st := bfsLoop getRels depth seedIDs
      { visited := seedIDs, result := [], nextLevel := [], calls := [] }
    (st.result, st.calls)

/-! ## Curator (`internal/memory/curator.go`) -/

/-- `ai.CuratedMemory`: one memory proposed by the AI collaborator. -/
structure CuratedMemory where
  content : Str
  importance : ℚ
  semanticTags : List String
  contextType : String
  triggerPhrases : List Str
  questionTypes : List String
  temporalRelevance : String
  actionRequired : Bool
  reasoning : String
  deriving DecidableEq, Repr

/-- `ai.MemoryRelationship`: an edge between proposed memories, referenced
by position index (Go `int`, so possibly negative). -/
structure MemoryRelationship where
  fromIndex : Int
  toIndex : Int
  relType : String
  deriving DecidableEq, Repr

/-- `ai.CurationResponse`: what the AI collaborator returns. -/
structure AICurationResponse where
  memories : List CuratedMemory
  relationships : List MemoryRelationship
  summary : String
  deriving DecidableEq, Repr

/-- The anonymous relationship struct inside `memory.CurationResponse`. -/
structure CuratedRelationship where
  fromId : String
  toId : String
  relType : String
  deriving DecidableEq, Repr

/-- `memory.CurationResponse`: what `CurateSession` returns. -/
structure CurationResponse where
  memories : List Memory
  relationships : List CuratedRelationship
  summary : String
  deriving DecidableEq, Repr

/-- Environment for `CurateSession`: `freshIds i` is the `uuid.New()` drawn
for the `i`-th proposed memory, and `createErr i` is the outcome of the
engine's `CreateMemory` call for it (`some e` = failure). The timestamp
side effect of `CreateMemory` is not observed by the curator logic and is
elided here. -/
structure CuratorEnv where
  freshIds : Nat → String
  createErr : Nat → Option String

/-- The `Memory` value the curator builds from one proposed memory
(the struct literal inside `CurateSession`'s loop). -/
def curatedToMemory (id pid sid : String) (cm : CuratedMemory) : Memory :=
  { id := id
    projectId := pid
    sessionId := sid
    content := cm.content
    importance := cm.importance
    semanticTags := cm.semanticTags
    contextType := cm.contextType
    triggerPhrases := cm.triggerPhrases
    questionTypes := cm.questionTypes
    temporalRelevance := cm.temporalRelevance
    actionRequired := cm.actionRequired
    reasoning := cm.reasoning }

/-- The memory-storing loop of `CurateSession`, from position `i`: stops and
propagates the first `CreateMemory` failure. Besides the returned value it
yields the list of memories durably created (those whose `CreateMemory`
call succeeded). -/
def storeMemories (env : CuratorEnv) (pid sid : String) :
    Nat → List CuratedMemory → Except String (List Memory) × List Memory
  | _, [] => (.ok [], [])
  | i, cm :: rest =>
    let mem := curatedToMemory (env.freshIds i) pid sid cm
    match env.createErr i with
    | some e => (.error ("failed to store memory: " ++ e), [])
    | none =>
      match storeMemories env pid sid (i + 1) rest with
      | (.error e, created) => (.error e, mem :: created)
      | (.ok mems, created) => (.ok (mem :: mems), mem :: created)

/-- The relationship loop of `CurateSession`: an edge with either index
outside `[0, len(memoryIDs))` is skipped (`continue`); otherwise the edge is
translated to the assigned ids. -/
def buildRelationships (memoryIDs : List String) :
    List MemoryRelationship → List CuratedRelationship
  | [] => []
  | rel :: rest =>
    if rel.fromIndex < 0 ∨ (memoryIDs.length : Int) ≤ rel.fromIndex ∨
        rel.toIndex < 0 ∨ (memoryIDs.length : Int) ≤ rel.toIndex then
      buildRelationships memoryIDs rest
    else
      { fromId := memoryIDs.getD rel.fromIndex.toNat ""
        toId := memoryIDs.getD rel.toIndex.toNat ""
        relType := rel.relType } :: buildRelationships memoryIDs rest

/-- Spec-side helper: the memories the curator builds from the proposals
starting at position `i` (used to state exactly which memories a partial
run creates). -/
def mkMemories (env : CuratorEnv) (pid sid : String) :
    Nat → List CuratedMemory → List Memory
  | _, [] => []
  | i, cm :: rest =>
    curatedToMemory (env.freshIds i) pid sid cm :: mkMemories env pid sid (i + 1) rest

/-- Spec-side helper: the translation of one AI edge — `none` exactly when
an index is out of range, otherwise the edge over the assigned ids. -/
def translateEdge (memoryIDs : List String) (rel : MemoryRelationship) :
    Option CuratedRelationship :=
  if rel.fromIndex < 0 ∨ (memoryIDs.length : Int) ≤ rel.fromIndex ∨
      rel.toIndex < 0 ∨ (memoryIDs.length : Int) ≤ rel.toIndex then none
  else some { fromId := memoryIDs.getD rel.fromIndex.toNat ""
              toId := memoryIDs.getD rel.toIndex.toNat ""
              relType := rel.relType }

/-- `CurateSession` from `internal/memory/curator.go`, parameterised by the
AI collaborator's outcome (`aiResult`) and the per-memory `CreateMemory`
outcomes. Returns the Go function's return value together with the list of
memories durably created during the call. -/
def curateSession (env : CuratorEnv) (aiResult : Except String AICurationResponse)
    (pid sid : String) : Except String CurationResponse × List Memory :=
  match aiResult with
  | .error e => (.error ("failed to curate memories with AI: " ++ e), [])
  | .ok aiResp =>
    match storeMemories env pid sid 0 aiResp.memories with
    | (.error e, created) => (.error e, created)
    | (.ok memories, created) =>
      let memoryIDs := memories.map (·.id)
      (.ok { memories := memories
             relationships := buildRelationships memoryIDs aiResp.relationships
             summary := aiResp.summary }, created)

/-! ## `CreateMemory` (`internal/memory/engine.go`) -/

/-- Environment for one `CreateMemory` call: the embedder outcome, the two
store-write outcomes, the generated uuid, and the clock reading used for
the final timestamp assignment. -/
structure CreateMemoryEnv where
  embed : Str → Except String (List ℚ)
  sqlCreateErr : Option String
  vecStoreErr : Option String
  freshId : String
  now : Int

/-- The write sent to the vector store by `CreateMemory`: the id, content,
embedding, and the metadata projection (the `metadata` map literal in the
source). `metaCreatedAt` is the `created_at` entry, `mem.CreatedAt.Unix()`. -/
structure VectorWrite where
  id : String
  content : Str
  embedding : List ℚ
  metaProjectId : String
  metaImportance : ℚ
  metaContextType : String
  metaTemporalRelevance : String
  metaActionRequired : Bool
  metaTags : List String
  metaTriggerPhrases : List Str
  metaCreatedAt : Int
  deriving DecidableEq, Repr

/-- `CreateMemory` from `internal/memory/engine.go`: assigns a fresh id when
absent; embeds the content; writes to SQLite, then to the vector store
(building the metadata from the memory as it is at that point, so
`created_at` uses the pre-call `CreatedAt`); only after both writes succeed
does it set `CreatedAt`/`UpdatedAt` to the current time. On success, the
returned pair is the final memory and the vector-store write. -/
def createMemory (env : CreateMemoryEnv) (mem : Memory) :
    Except String (Memory × VectorWrite) :=
  let mem := if mem.id = "" then { mem with id := env.freshId } else mem
  match env.embed mem.content with
  | .error e => .error ("failed to generate embedding: " ++ e)
  | .ok embedding =>
    match env.sqlCreateErr with
    | some e => .error ("failed to store memory in SQLite: " ++ e)
    | none =>
      let write : VectorWrite :=
        { id := mem.id
          content := mem.content
          embedding := embedding
          metaProjectId := mem.projectId
          metaImportance := mem.importance
          metaContextType := mem.contextType
          metaTemporalRelevance := mem.temporalRelevance
          metaActionRequired := mem.actionRequired
          metaTags := mem.semanticTags
          metaTriggerPhrases := mem.triggerPhrases
          metaCreatedAt := mem.createdAt }
      match env.vecStoreErr with
      | some e => .error ("failed to store memory in vector database: " ++ e)
      | none => .ok ({ mem with createdAt := env.now, updatedAt := env.now }, write)

/-! ## Concrete evaluation inputs -/

/-- A small concrete memory used to exercise the search pipeline. -/
def memOf (id : String) (importance : ℚ) : Memory :=
  { id := id
    projectId := "p1"
    sessionId := ""
    content := []
    importance := importance
    semanticTags := []
    contextType := ""
    triggerPhrases := []
    questionTypes := []
    temporalRelevance := ""
    actionRequired := false
    reasoning := "" }

/-- A concrete relational-store lookup with four memories: `"a"` and `"b"`
with importance `1/5`, `"c"` with importance `1/2`, `"z"` with importance
`0`. -/
def wGetMemory : String → Option Memory := fun i =>
  if i = "a" then some (memOf "a" (1/5))
  else if i = "b" then some (memOf "b" (1/5))
  else if i = "c" then some (memOf "c" (1/2))
  else if i = "z" then some (memOf "z" 0)
  else none

/-- A concrete relationship graph: `a — b` and `b — c` (edges `a→b`, `b→c`). -/
def wGetRels : String → Option (List Relationship) := fun i =>
  if i = "a" then some [{ fromMemoryID := "a", toMemoryID := "b", relType := "related_to" }]
  else if i = "b" then
    some [{ fromMemoryID := "a", toMemoryID := "b", relType := "related_to" },
          { fromMemoryID := "b", toMemoryID := "c", relType := "related_to" }]
  else some []

/-- A concrete proposed memory for curator runs. -/
def wCurated (content : Str) : CuratedMemory :=
  { content := content
    importance := 1/2
    semanticTags := []
    contextType := "DECISION"
    triggerPhrases := []
    questionTypes := []
    temporalRelevance := "persistent"
    actionRequired := false
    reasoning := "" }

/-- A curator environment in which every `CreateMemory` call succeeds. -/
def wCuratorEnvOk : CuratorEnv :=
  { freshIds := fun i => "id" ++ toString i
    createErr := fun _ => none }

/-- A curator environment in which the second `CreateMemory` call (index 1)
fails. -/
def wCuratorEnvFail1 : CuratorEnv :=
  { freshIds := fun i => "id" ++ toString i
    createErr := fun i => if i = 1 then some "db down" else none }

/-- A concrete AI response: three proposed memories, one in-range edge
`0 → 2` and one out-of-range edge `1 → 3`. -/
def wAIResp : AICurationResponse :=
  { memories := [wCurated [104], wCurated [105], wCurated [106]]
    relationships :=
      [{ fromIndex := 0, toIndex := 2, relType := "related_to" },
       { fromIndex := 1, toIndex := 3, relType := "supersedes" }]
    summary := "s" }

/-- A `CreateMemory` environment in which every collaborator succeeds. -/
def wCreateEnv : CreateMemoryEnv :=
  { embed := fun _ => .ok [1, 0]
    sqlCreateErr := none
    vecStoreErr := none
    freshId := "fresh-1"
    now := 1700000000 }

/-- The memory returned by the witness `createMemory` run: the input with
both timestamps set to the environment clock. -/
def wFinalMem : Memory :=
  { memOf "m1" (1/2) with createdAt := 1700000000, updatedAt := 1700000000 }

/-- The vector-store write of the witness `createMemory` run; its
`created_at` metadata carries the zero-time epoch. -/
def wWrite : VectorWrite :=
  { id := "m1"
    content := []
    embedding := [1, 0]
    metaProjectId := "p1"
    metaImportance := 1/2
    metaContextType := ""
    metaTemporalRelevance := ""
    metaActionRequired := false
    metaTags := []
    metaTriggerPhrases := []
    metaCreatedAt := goZeroTimeUnix }

/-- The single search result produced by `searchMemories wGetMemory [] 0
[⟨"c", 1⟩]`: distance 1 gives similarity 0, so the relevance score is
`0.3 · (1/2) = 3/20`. -/
def wR1 : SearchResult :=
  { memory := memOf "c" (1/2)
    similarityScore := 0
    relevanceScore := 3/20
    triggerMatched := false }

/-- The single result of `searchMemories wGetMemory [] 0 [⟨"z", 2⟩]`:
distance 2 gives similarity −1, and the relevance score `−1 · 0.6 + 0 · 0.3
= −3/5` is negative (the code has no floor clamp). -/
def wRz : SearchResult :=
  { memory := memOf "z" 0
    similarityScore := -1
    relevanceScore := -(3/5)
    triggerMatched := false }

/-- The result built for candidate `"a"` (distance 1, importance 1/5):
relevance score `3/50`. -/
def wRa : SearchResult :=
  { memory := memOf "a" (1/5)
    similarityScore := 0
    relevanceScore := 3/50
    triggerMatched := false }

/-- The result built for candidate `"b"` (distance 1, importance 1/5):
relevance score `3/50`, tied with `wRa`. -/
def wRb : SearchResult :=
  { memory := memOf "b" (1/5)
    similarityScore := 0
    relevanceScore := 3/50
    triggerMatched := false }

/-- Substring containment, stated the way the specification reads: the
needle occurs contiguously inside the haystack. -/
def isSubstring (haystack needle : Str) : Prop :=
  ∃ pre post, haystack = pre ++ needle ++ post

/-- The BFS invariant behind seed exclusion: every seed is in the visited
set, and nothing already in the result is a seed. -/
def seedInv (seeds : List String) (st : BfsState) : Prop :=
  (∀ s ∈ seeds, s ∈ st.visited) ∧ ∀ r ∈ st.result, r ∉ seeds

end Alaala

namespace Alaala

/-! ## Helper lemmas: the exchange sort -/

theorem innerPass_snd_length (x : SearchResult) (l : List SearchResult) :
    (innerPass x l).2.length = l.length := by
  induction l generalizing x with
  | nil => rfl
  | cons y ys ih =>
    simp only [innerPass]
    split <;> simp [ih]

theorem innerPass_perm (x : SearchResult) (l : List SearchResult) :
    ((innerPass x l).1 :: (innerPass x l).2).Perm (x :: l) := by
  induction l generalizing x with
  | nil => simp [innerPass]
  | cons y ys ih =>
    simp only [innerPass]
    split
    · exact (List.Perm.swap x _ _).trans (List.Perm.cons x (ih y))
    · exact (List.Perm.swap y _ _).trans ((List.Perm.cons y (ih x)).trans
        (List.Perm.swap x y ys))

theorem innerPass_fst_ge (x : SearchResult) (l : List SearchResult) :
    x.relevanceScore ≤ (innerPass x l).1.relevanceScore := by
  induction l generalizing x with
  | nil => simp [innerPass]
  | cons y ys ih =>
    simp only [innerPass]
    split
    · next h => exact le_of_lt (lt_of_lt_of_le h (ih y))
    · exact ih x

theorem innerPass_snd_le (x : SearchResult) (l : List SearchResult) :
    ∀ z ∈ (innerPass x l).2, z.relevanceScore ≤ (innerPass x l).1.relevanceScore := by
  induction l generalizing x with
  | nil => simp [innerPass]
  | cons y ys ih =>
    simp only [innerPass]
    split
    · next h =>
      intro z hz
      rcases List.mem_cons.mp hz with rfl | hz
      · exact le_trans (le_of_lt h) (innerPass_fst_ge y ys)
      · exact ih y z hz
    · next h =>
      intro z hz
      rcases List.mem_cons.mp hz with rfl | hz
      · exact le_trans (not_lt.mp h) (innerPass_fst_ge x ys)
      · exact ih x z hz

theorem sortLoop_perm (fuel : Nat) (l : List SearchResult)
    (hl : l.length ≤ fuel) : (sortLoop fuel l).Perm l := by
  induction fuel generalizing l with
  | zero =>
    rw [List.length_eq_zero.mp (Nat.le_zero.mp hl)]
    simp [sortLoop]
  | succ n ih =>
    match l with
    | [] => simp [sortLoop]
    | x :: xs =>
      simp only [sortLoop]
      have h2 : (innerPass x xs).2.length ≤ n := by
        rw [innerPass_snd_length]
        simp only [List.length_cons] at hl
        omega
      exact (List.Perm.cons _ (ih _ h2)).trans (innerPass_perm x xs)

theorem sortLoop_sorted (fuel : Nat) (l : List SearchResult)
    (hl : l.length ≤ fuel) :
    (sortLoop fuel l).Pairwise (fun a b => b.relevanceScore ≤ a.relevanceScore) := by
  induction fuel generalizing l with
  | zero =>
    rw [List.length_eq_zero.mp (Nat.le_zero.mp hl)]
    simp [sortLoop]
  | succ n ih =>
    match l with
    | [] => simp [sortLoop]
    | x :: xs =>
      simp only [sortLoop]
      have h2 : (innerPass x xs).2.length ≤ n := by
        rw [innerPass_snd_length]
        simp only [List.length_cons] at hl
        omega
      refine List.pairwise_cons.mpr ⟨?_, ih _ h2⟩
      intro z hz
      exact innerPass_snd_le x xs z ((sortLoop_perm n _ h2).mem_iff.mp hz)

theorem sortByRelevance_perm (l : List SearchResult) :
    (sortByRelevance l).Perm l :=
  sortLoop_perm l.length l le_rfl

theorem sortByRelevance_sorted (l : List SearchResult) :
    (sortByRelevance l).Pairwise (fun a b => b.relevanceScore ≤ a.relevanceScore) :=
  sortLoop_sorted l.length l le_rfl

/-! ## Helper lemmas: scoring and search -/

theorem cap_eq_min (s : ℚ) : (if s > 1.0 then 1.0 else s) = min s 1 := by
  have h10 : (1.0 : ℚ) = 1 := by norm_num
  rw [h10]
  rcases le_or_lt s 1 with h | h
  · rw [if_neg (not_lt.mpr h), min_eq_left h]
  · rw [if_pos h, min_eq_right h.le]

theorem calculateRelevanceScore_eq_min (mem : Memory) (sim : ℚ) (t : Bool) :
    calculateRelevanceScore mem sim t =
      min (0.6 * sim + 0.3 * mem.importance + (if t then 0.2 else 0)
        + (if mem.actionRequired then 0.1 else 0)) 1 := by
  simp only [calculateRelevanceScore]
  rw [cap_eq_min]
  congr 1
  rcases t <;> rcases mem.actionRequired <;> simp <;> ring

theorem mem_searchMemories {getMemory : String → Option Memory} {query : Str}
    {limitArg : Nat} {vrs : List VectorSearchResult} {r : SearchResult}
    (hr : r ∈ searchMemories getMemory query limitArg vrs) :
    ∃ vr ∈ vrs, ∃ mem, getMemory vr.id = some mem ∧
      r.memory = mem ∧
      r.similarityScore = 1 - vr.distance ∧
      r.triggerMatched = checkTriggerMatch query mem.triggerPhrases ∧
      r.relevanceScore = calculateRelevanceScore mem (1 - vr.distance)
        (checkTriggerMatch query mem.triggerPhrases) := by
  simp only [searchMemories] at hr
  have h1 := List.mem_of_mem_take hr
  have h2 := (sortByRelevance_perm _).mem_iff.mp h1
  rcases List.mem_filterMap.mp h2 with ⟨vr, hvr, hmap⟩
  rcases Option.map_eq_some'.mp hmap with ⟨mem, hg, hr_eq⟩
  subst hr_eq
  exact ⟨vr, hvr, mem, hg, rfl, rfl, rfl, rfl⟩

/-! ## Helper lemmas: substring matching -/

theorem contains_iff (hs n : Str) :
    contains hs n = true ↔ ∃ pre post, hs = pre ++ n ++ post := by
  constructor
  · intro hc
    unfold contains at hc
    split at hc
    · exact absurd hc (by simp)
    · next hlen =>
      rcases List.any_eq_true.mp hc with ⟨i, _, hw⟩
      have hwin : (hs.drop i).take n.length = n := of_decide_eq_true hw
      refine ⟨hs.take i, hs.drop (i + n.length), ?_⟩
      conv_lhs => rw [← List.take_append_drop i hs,
        ← List.take_append_drop n.length (hs.drop i), hwin, List.drop_drop]
      rw [List.append_assoc]
  · rintro ⟨pre, post, rfl⟩
    unfold contains
    rw [if_neg (by simp [List.length_append]; omega)]
    refine List.any_eq_true.mpr ⟨pre.length, List.mem_range.mpr ?_, decide_eq_true ?_⟩
    · simp [List.length_append]
      omega
    · rw [List.append_assoc, List.drop_left, List.take_left]

/-! ## Helper lemmas: graph traversal -/

theorem visitRel_seedInv {seeds : List String} (memID : String) (st : BfsState)
    (rel : Relationship) (h : seedInv seeds st) :
    seedInv seeds (visitRel memID st rel) := by
  simp only [visitRel]
  have key : ∀ relatedID : String,
      seedInv seeds (if relatedID ∈ st.visited then st
        else BfsState.mk (st.visited ++ [relatedID]) (st.result ++ [relatedID])
          (st.nextLevel ++ [relatedID]) st.calls) := by
    intro relatedID
    split
    · exact h
    · next hnot =>
      refine ⟨fun s hs => List.mem_append.mpr (Or.inl (h.1 s hs)), ?_⟩
      intro r hr
      rcases List.mem_append.mp hr with hr | hr
      · exact h.2 r hr
      · rw [List.mem_singleton.mp hr]
        intro hrseeds
        exact hnot (h.1 _ hrseeds)
  exact key _

theorem foldl_seedInv {α : Type} {seeds : List String} (f : BfsState → α → BfsState)
    (hf : ∀ st a, seedInv seeds st → seedInv seeds (f st a)) :
    ∀ (l : List α) (st : BfsState), seedInv seeds st → seedInv seeds (l.foldl f st) := by
  intro l
  induction l with
  | nil => exact fun st h => h
  | cons a as ih => exact fun st h => ih _ (hf st a h)

theorem processNode_seedInv {seeds : List String}
    (getRels : String → Option (List Relationship)) (st : BfsState)
    (memID : String) (h : seedInv seeds st) :
    seedInv seeds (processNode getRels st memID) := by
  unfold processNode
  have h' : seedInv seeds { st with calls := st.calls ++ [memID] } := h
  split
  · exact h'
  · exact foldl_seedInv _ (fun st a => visitRel_seedInv memID st a) _ _ h'

theorem bfsLoop_seedInv {seeds : List String}
    (getRels : String → Option (List Relationship)) :
    ∀ (depth : Nat) (level : List String) (st : BfsState),
      seedInv seeds st → seedInv seeds (bfsLoop getRels depth level st) := by
  intro depth
  induction depth with
  | zero => exact fun level st h => h
  | succ d ih =>
    intro level st h
    unfold bfsLoop
    split
    · exact h
    · exact ih _ _ (foldl_seedInv _ (fun st a => processNode_seedInv getRels st a) _ _ h)

/-! ## Claims -/

/-- C1: for every search result produced by `SearchMemories`, the composite
relevance score equals `0.6 × similarity + 0.3 × importance + 0.2` if the
trigger-match flag is true `+ 0.1` if the action-required flag is true,
clamped to a maximum of 1.0. -/
theorem C1_relevance_score_formula (getMemory : String → Option Memory)
    (query : Str) (limitArg : Nat) (vrs : List VectorSearchResult)
    (r : SearchResult) (hr : r ∈ searchMemories getMemory query limitArg vrs) :
    r.relevanceScore =
      min (0.6 * r.similarityScore + 0.3 * r.memory.importance
        + (if r.triggerMatched then 0.2 else 0)
        + (if r.memory.actionRequired then 0.1 else 0)) 1 := by
  rcases mem_searchMemories hr with ⟨vr, hvr, mem, hg, hmem, hsim, htrig, hrel⟩
  rw [hrel, hmem, hsim, htrig, calculateRelevanceScore_eq_min]

/-- Witness for C1 at a concrete search: one candidate with distance 1 and
importance 1/2 yields relevance score `3/20`, and the formula agrees. -/
theorem C1_relevance_score_formula_witness :
    wR1 ∈ searchMemories wGetMemory [] 0 [⟨"c", 1⟩] ∧
    wR1.relevanceScore =
      min (0.6 * wR1.similarityScore + 0.3 * wR1.memory.importance
        + (if wR1.triggerMatched then 0.2 else 0)
        + (if wR1.memory.actionRequired then 0.1 else 0)) 1 :=
  have hev : searchMemories wGetMemory [] 0 [⟨"c", 1⟩] = [wR1] := by
    norm_num [searchMemories, wGetMemory, memOf, checkTriggerMatch, toLower, contains,
      calculateRelevanceScore, sortByRelevance, sortLoop, innerPass, wR1]
  ⟨hev ▸ List.mem_singleton.mpr rfl,
    C1_relevance_score_formula wGetMemory [] 0 [⟨"c", 1⟩] wR1
      (hev ▸ List.mem_singleton.mpr rfl)⟩

/-- C2 as stated is false on the code: for a vector-store distance of 2
(similarity −1) and importance 0, the relevance score is −3/5, below 0 —
the code clamps only the upper end. -/
theorem C2_counterexample :
    ¬ ∀ r ∈ searchMemories wGetMemory [] 0 [⟨"z", 2⟩],
        0 ≤ r.relevanceScore ∧ r.relevanceScore ≤ 1 := by
  have hev : searchMemories wGetMemory [] 0 [⟨"z", 2⟩] = [wRz] := by
    norm_num [searchMemories, wGetMemory, memOf, checkTriggerMatch, toLower, contains,
      calculateRelevanceScore, sortByRelevance, sortLoop, innerPass, wRz]
  rw [hev]
  intro h
  have h0 := (h wRz (List.mem_singleton.mpr rfl)).1
  norm_num [wRz] at h0

/-- C2 (amended): every relevance score produced by `SearchMemories` lies in
`[0, 1]` provided the vector-store distances lie in `[0, 1]` and the
hydrated memories' importances lie in `[0, 1]`; the upper bound is
unconditional via the clamp, but the lower bound genuinely needs the
distance bound, since the code has no floor clamp. -/
theorem C2_relevance_score_bounds (getMemory : String → Option Memory)
    (query : Str) (limitArg : Nat) (vrs : List VectorSearchResult) :
    (∀ r ∈ searchMemories getMemory query limitArg vrs, r.relevanceScore ≤ 1) ∧
    ((∀ vr ∈ vrs, 0 ≤ vr.distance ∧ vr.distance ≤ 1) →
      (∀ i mem, getMemory i = some mem → 0 ≤ mem.importance ∧ mem.importance ≤ 1) →
      ∀ r ∈ searchMemories getMemory query limitArg vrs,
        0 ≤ r.relevanceScore ∧ r.relevanceScore ≤ 1) := by
  constructor
  · intro r hr
    rcases mem_searchMemories hr with ⟨vr, hvr, mem, hg, _, _, _, hrel⟩
    rw [hrel, calculateRelevanceScore_eq_min]
    exact min_le_right _ _
  · intro hd him r hr
    rcases mem_searchMemories hr with ⟨vr, hvr, mem, hg, _, _, _, hrel⟩
    have hdist := (hd vr hvr).2
    have himp := (him vr.id mem hg).1
    rw [hrel, calculateRelevanceScore_eq_min]
    refine ⟨le_min ?_ (by norm_num), min_le_right _ _⟩
    have h1 : (0:ℚ) ≤ 0.6 * (1 - vr.distance) := by nlinarith
    have h2 : (0:ℚ) ≤ 0.3 * mem.importance := by nlinarith
    split_ifs <;> nlinarith

/-- Witness for C2 (amended): the unconditional upper bound is exercised at
a search whose candidate has distance 2 (where the score is even negative),
and the conditional bounds at a search with distance 1/2 and importance
1/2. -/
theorem C2_relevance_score_bounds_witness :
    (wRz ∈ searchMemories wGetMemory [] 0 [⟨"z", 2⟩] ∧ wRz.relevanceScore ≤ 1) ∧
    ((∀ vr ∈ [(⟨"c", 1/2⟩ : VectorSearchResult)], 0 ≤ vr.distance ∧ vr.distance ≤ 1) ∧
     (∀ i mem, wGetMemory i = some mem → 0 ≤ mem.importance ∧ mem.importance ≤ 1) ∧
     ∀ r ∈ searchMemories wGetMemory [] 0 [⟨"c", 1/2⟩],
       0 ≤ r.relevanceScore ∧ r.relevanceScore ≤ 1) := by
  have hevz : searchMemories wGetMemory [] 0 [⟨"z", 2⟩] = [wRz] := by
    norm_num [searchMemories, wGetMemory, memOf, checkTriggerMatch, toLower, contains,
      calculateRelevanceScore, sortByRelevance, sortLoop, innerPass, wRz]
  have hmemz : wRz ∈ searchMemories wGetMemory [] 0 [⟨"z", 2⟩] :=
    hevz ▸ List.mem_singleton.mpr rfl
  have him : ∀ i mem, wGetMemory i = some mem →
      0 ≤ mem.importance ∧ mem.importance ≤ 1 := by
    intro i mem h
    unfold wGetMemory at h
    split_ifs at h <;> cases h <;> norm_num [memOf]
  have hd : ∀ vr ∈ [(⟨"c", 1/2⟩ : VectorSearchResult)],
      0 ≤ vr.distance ∧ vr.distance ≤ 1 := by
    intro vr hvr
    rw [List.mem_singleton.mp hvr]
    norm_num
  exact ⟨⟨hmemz, (C2_relevance_score_bounds wGetMemory [] 0 [⟨"z", 2⟩]).1 wRz hmemz⟩,
    hd, him, (C2_relevance_score_bounds wGetMemory [] 0 [⟨"c", 1/2⟩]).2 hd him⟩

/-- C3 as stated is false on the code: the exchange sort does not order
equal-score results by memory id ascending. With candidates `a`, `b`
(equal scores) and `c` (higher score), in that input order, the pass for
index 0 swaps `a` with `c`, leaving the equal-score pair as `b` before `a`
— descending ids. -/
theorem C3_counterexample :
    ¬ (searchMemories wGetMemory [] 0 [⟨"a", 1⟩, ⟨"b", 1⟩, ⟨"c", 1⟩]).Pairwise
        (fun x y => y.relevanceScore ≤ x.relevanceScore ∧
          (x.relevanceScore = y.relevanceScore → x.memory.id < y.memory.id)) := by
  have hev : searchMemories wGetMemory [] 0 [⟨"a", 1⟩, ⟨"b", 1⟩, ⟨"c", 1⟩]
      = [wR1, wRb, wRa] := by
    norm_num [searchMemories, wGetMemory, memOf, checkTriggerMatch, toLower, contains,
      calculateRelevanceScore, sortByRelevance, sortLoop, innerPass, wR1, wRa, wRb]
  rw [hev]
  intro h
  rcases List.pairwise_cons.mp h with ⟨_, h2⟩
  rcases List.pairwise_cons.mp h2 with ⟨h3, _⟩
  have hlt := (h3 wRa (List.mem_singleton.mpr rfl)).2 rfl
  rw [show wRb.memory.id = "b" from rfl, show wRa.memory.id = "a" from rfl,
    String.lt_iff_toList_lt] at hlt
  exact absurd hlt (by decide)

/-- C3 (amended): the list returned by `SearchMemories` is sorted in
non-increasing order of relevance score (no earlier result has a strictly
lower relevance score than a later one); ties are left in the order the
exchange sort happens to produce, not ordered by memory id. -/
theorem C3_sorted_by_relevance (getMemory : String → Option Memory)
    (query : Str) (limitArg : Nat) (vrs : List VectorSearchResult) :
    (searchMemories getMemory query limitArg vrs).Pairwise
      (fun x y => y.relevanceScore ≤ x.relevanceScore) := by
  simp only [searchMemories]
  exact List.Pairwise.sublist (List.take_sublist _ _) (sortByRelevance_sorted _)

/-- C4: for every query and every set of trigger phrases, the trigger-match
flag (which `SearchMemories` computes with `checkTriggerMatch`) is true iff
the lowercased query contains at least one trigger phrase, lowercased, as a
substring. -/
theorem C4_trigger_match_iff (query : Str) (triggers : List Str) :
    checkTriggerMatch query triggers = true ↔
      ∃ t ∈ triggers, isSubstring (toLower query) (toLower t) := by
  unfold checkTriggerMatch isSubstring
  rw [List.any_eq_true]
  constructor
  · rintro ⟨t, ht, hc⟩
    exact ⟨t, ht, (contains_iff _ _).mp hc⟩
  · rintro ⟨t, ht, hc⟩
    exact ⟨t, ht, (contains_iff _ _).mpr hc⟩

/-- C7: in the dispatcher read loop, a line that fails JSON parsing produces
exactly one error response, with code −32700 and a null id, and the loop
goes on to process the remaining lines exactly as it would have; a
malformed line never terminates the loop. -/
theorem C7_malformed_line_parse_error (handlers : Handlers) (rest : List InLine) :
    runLoop handlers (InLine.malformed :: rest) =
      sendError none (-32700) "Parse error" :: runLoop handlers rest := by
  rfl

/-- Witness for C7: a malformed line followed by a valid `initialize`-style
request yields the −32700 response and then the normal response for the
second line. -/
theorem C7_malformed_line_parse_error_witness :
    runLoop (fun m => if m = "initialize" then some (fun _ => .ok "caps") else none)
        [InLine.malformed, InLine.valid ⟨some 7, "initialize", ""⟩] =
      [sendError none (-32700) "Parse error", sendResult (some 7) "caps"] := by
  have h := C7_malformed_line_parse_error
    (fun m => if m = "initialize" then some (fun _ => .ok "caps") else none)
    [InLine.valid ⟨some 7, "initialize", ""⟩]
  rw [h]
  rfl

/-- C9: the elapsed-time formatter boundary cases — 30 s, 90 s, 7200 s,
90000 s, 10 days (864000 s) and 35 days (3024000 s). -/
theorem C9_format_duration_boundaries :
    formatDuration 30 = "just now" ∧
    formatDuration 90 = "1 minute ago" ∧
    formatDuration 7200 = "2 hours ago" ∧
    formatDuration 90000 = "1 day ago" ∧
    formatDuration 864000 = "1 week ago" ∧
    formatDuration 3024000 = "1 month ago" := by
  refine ⟨rfl, rfl, rfl, rfl, rfl, rfl⟩

end Alaala

namespace Alaala

/-! ## Helper lemmas: curator -/

theorem createMemory_ok_spec (env : CreateMemoryEnv) (mem : Memory)
    (out : Memory × VectorWrite) (hok : createMemory env mem = .ok out) :
    out.2.metaCreatedAt = mem.createdAt ∧ out.1.createdAt = env.now := by
  simp only [createMemory] at hok
  split at hok
  · exact absurd hok (by simp)
  · split at hok
    · exact absurd hok (by simp)
    · split at hok
      · exact absurd hok (by simp)
      · rcases Except.ok.inj hok with rfl
        constructor
        · show (if mem.id = "" then { mem with id := env.freshId } else mem).createdAt
            = mem.createdAt
          split <;> rfl
        · rfl

theorem storeMemories_all_ok (env : CuratorEnv) (pid sid : String)
    (hok : ∀ j, env.createErr j = none) :
    ∀ (cms : List CuratedMemory) (s : Nat),
      storeMemories env pid sid s cms =
        (.ok (mkMemories env pid sid s cms), mkMemories env pid sid s cms) := by
  intro cms
  induction cms with
  | nil => intro s; rfl
  | cons cm rest ih =>
    intro s
    unfold storeMemories mkMemories
    rw [hok s, ih (s + 1)]

theorem storeMemories_stops (env : CuratorEnv) (pid sid : String) :
    ∀ (cms : List CuratedMemory) (s k : Nat) (err : String),
      (∀ j, j < k → env.createErr (s + j) = none) →
      env.createErr (s + k) = some err →
      k < cms.length →
      ∃ msg, storeMemories env pid sid s cms =
        (.error msg, mkMemories env pid sid s (cms.take k)) := by
  intro cms
  induction cms with
  | nil =>
    intro s k err _ _ hk
    exact absurd hk (by simp)
  | cons cm rest ih =>
    intro s k err hok hfail hk
    match k with
    | 0 =>
      refine ⟨"failed to store memory: " ++ err, ?_⟩
      unfold storeMemories
      rw [show s + 0 = s from rfl] at hfail
      rw [hfail]
      rfl
    | k' + 1 =>
      have h0 : env.createErr s = none := by
        have := hok 0 (Nat.succ_pos k')
        rwa [Nat.add_zero] at this
      have hfail' : env.createErr (s + 1 + k') = some err := by
        rw [show s + 1 + k' = s + (k' + 1) by omega]
        exact hfail
      have hok' : ∀ j, j < k' → env.createErr (s + 1 + j) = none := by
        intro j hj
        rw [show s + 1 + j = s + (j + 1) by omega]
        exact hok (j + 1) (by omega)
      have hk' : k' < rest.length := by
        simp at hk
        omega
      rcases ih (s + 1) k' err hok' hfail' hk' with ⟨msg, hrec⟩
      refine ⟨msg, ?_⟩
      unfold storeMemories
      rw [h0, hrec]
      rfl

theorem buildRelationships_eq_filterMap (memoryIDs : List String)
    (rels : List MemoryRelationship) :
    buildRelationships memoryIDs rels = rels.filterMap (translateEdge memoryIDs) := by
  induction rels with
  | nil => rfl
  | cons rel rest ih =>
    unfold buildRelationships
    rw [List.filterMap_cons]
    by_cases hc : rel.fromIndex < 0 ∨ (memoryIDs.length : Int) ≤ rel.fromIndex ∨
        rel.toIndex < 0 ∨ (memoryIDs.length : Int) ≤ rel.toIndex
    · have ht : translateEdge memoryIDs rel = none := by
        unfold translateEdge
        rw [if_pos hc]
      rw [if_pos hc, ht]
      exact ih
    · have ht : translateEdge memoryIDs rel =
          some { fromId := memoryIDs.getD rel.fromIndex.toNat ""
                 toId := memoryIDs.getD rel.toIndex.toNat ""
                 relType := rel.relType } := by
        unfold translateEdge
        rw [if_neg hc]
      rw [if_neg hc, ht, ih]

theorem mkMemories_length (env : CuratorEnv) (pid sid : String) :
    ∀ (cms : List CuratedMemory) (s : Nat),
      (mkMemories env pid sid s cms).length = cms.length := by
  intro cms
  induction cms with
  | nil => intro s; rfl
  | cons cm rest ih => intro s; simp [mkMemories, ih]

/-! ## Claims about the curator, traverser and CreateMemory -/

/-- C5: if the AI-curation call fails, `CurateSession` returns an error and
creates no memories; if `CreateMemory` fails for the `i`-th proposed memory
(all earlier calls succeeding), `CurateSession` stops with an error and the
memories created are exactly the proposals before position `i`. -/
theorem C5_failure_atomicity (env : CuratorEnv) (pid sid e : String)
    (resp : AICurationResponse) (i : Nat) (err : String)
    (hok : ∀ j, j < i → env.createErr j = none)
    (hfail : env.createErr i = some err)
    (hi : i < resp.memories.length) :
    curateSession env (.error e) pid sid =
        (.error ("failed to curate memories with AI: " ++ e), []) ∧
    ∃ msg, curateSession env (.ok resp) pid sid =
        (.error msg, mkMemories env pid sid 0 (resp.memories.take i)) := by
  refine ⟨rfl, ?_⟩
  have hok0 : ∀ j, j < i → env.createErr (0 + j) = none := by
    intro j hj
    rw [Nat.zero_add]
    exact hok j hj
  have hfail0 : env.createErr (0 + i) = some err := by
    rw [Nat.zero_add]
    exact hfail
  rcases storeMemories_stops env pid sid resp.memories 0 i err hok0 hfail0 hi with ⟨msg, hsm⟩
  refine ⟨msg, ?_⟩
  simp only [curateSession]
  rw [hsm]

/-- Witness for C5: with the AI proposing three memories and `CreateMemory`
failing on the second, curation aborts and only the first memory is
created; an AI failure creates nothing. -/
theorem C5_failure_atomicity_witness :
    (∀ j, j < 1 → wCuratorEnvFail1.createErr j = none) ∧
    wCuratorEnvFail1.createErr 1 = some "db down" ∧
    1 < wAIResp.memories.length ∧
    (curateSession wCuratorEnvFail1 (.error "boom") "p1" "s1" =
        (.error ("failed to curate memories with AI: " ++ "boom"), []) ∧
      ∃ msg, curateSession wCuratorEnvFail1 (.ok wAIResp) "p1" "s1" =
        (.error msg, mkMemories wCuratorEnvFail1 "p1" "s1" 0 (wAIResp.memories.take 1))) :=
  ⟨by decide, by decide, by decide,
    C5_failure_atomicity wCuratorEnvFail1 "p1" "s1" "boom" wAIResp 1 "db down"
      (by decide) (by decide) (by decide)⟩

/-- C6: when the AI response contains a relationship edge whose `from_index`
or `to_index` is out of range, `CurateSession` (with all `CreateMemory`
calls succeeding) still completes successfully; the returned relationship
list is the translation of exactly the in-range edges, and the offending
edge translates to nothing. -/
theorem C6_out_of_range_edge_skipped (env : CuratorEnv) (pid sid : String)
    (resp : AICurationResponse)
    (hok : ∀ j, env.createErr j = none)
    (rel : MemoryRelationship) (hrel : rel ∈ resp.relationships)
    (hout : rel.fromIndex < 0 ∨ (resp.memories.length : Int) ≤ rel.fromIndex ∨
        rel.toIndex < 0 ∨ (resp.memories.length : Int) ≤ rel.toIndex) :
    (curateSession env (.ok resp) pid sid).1 =
      .ok { memories := mkMemories env pid sid 0 resp.memories
            relationships := resp.relationships.filterMap
              (translateEdge ((mkMemories env pid sid 0 resp.memories).map (·.id)))
            summary := resp.summary } ∧
    translateEdge ((mkMemories env pid sid 0 resp.memories).map (·.id)) rel = none := by
  constructor
  · simp only [curateSession]
    rw [storeMemories_all_ok env pid sid hok resp.memories 0]
    simp only [buildRelationships_eq_filterMap]
  · unfold translateEdge
    rw [if_pos]
    have hlen : ((mkMemories env pid sid 0 resp.memories).map (·.id)).length
        = resp.memories.length := by
      rw [List.length_map, mkMemories_length]
    rw [hlen]
    exact hout

/-- Witness for C6: the concrete AI response `wAIResp` has the out-of-range
edge `1 → 3` among three proposed memories; curation succeeds and that
edge is dropped. -/
theorem C6_out_of_range_edge_skipped_witness :
    (∀ j, wCuratorEnvOk.createErr j = none) ∧
    (⟨1, 3, "supersedes"⟩ : MemoryRelationship) ∈ wAIResp.relationships ∧
    ((⟨1, 3, "supersedes"⟩ : MemoryRelationship).fromIndex < 0 ∨
      (wAIResp.memories.length : Int) ≤ (⟨1, 3, "supersedes"⟩ : MemoryRelationship).fromIndex ∨
      (⟨1, 3, "supersedes"⟩ : MemoryRelationship).toIndex < 0 ∨
      (wAIResp.memories.length : Int) ≤ (⟨1, 3, "supersedes"⟩ : MemoryRelationship).toIndex) ∧
    ((curateSession wCuratorEnvOk (.ok wAIResp) "p1" "s1").1 =
      .ok { memories := mkMemories wCuratorEnvOk "p1" "s1" 0 wAIResp.memories
            relationships := wAIResp.relationships.filterMap
              (translateEdge ((mkMemories wCuratorEnvOk "p1" "s1" 0 wAIResp.memories).map (·.id)))
            summary := wAIResp.summary } ∧
     translateEdge ((mkMemories wCuratorEnvOk "p1" "s1" 0 wAIResp.memories).map (·.id))
        ⟨1, 3, "supersedes"⟩ = none) :=
  ⟨fun _ => rfl, by decide, by decide,
    C6_out_of_range_edge_skipped wCuratorEnvOk "p1" "s1" wAIResp (fun _ => rfl)
      ⟨1, 3, "supersedes"⟩ (by decide) (by decide)⟩

/-- C8: `ExpandMemories` never returns a seed id, and at depth 0 or with an
empty seed set it returns the empty list with no collaborator calls (the
second component lists the ids queried on the relationship store). -/
theorem C8_expand_excludes_seeds (getRels : String → Option (List Relationship))
    (seeds : List String) (depth : Nat) :
    (∀ id ∈ (expandMemories getRels seeds depth).1, id ∉ seeds) ∧
    expandMemories getRels seeds 0 = ([], []) ∧
    expandMemories getRels ([] : List String) depth = ([], []) := by
  refine ⟨?_, by simp [expandMemories], by simp [expandMemories]⟩
  intro id hid
  unfold expandMemories at hid
  split at hid
  · simp at hid
  · exact (bfsLoop_seedInv getRels depth seeds _ ⟨fun s hs => hs, by simp⟩).2 id hid

/-- Witness for C8: expanding from seed `"a"` at depth 1 over the concrete
graph discovers `"b"`, which is indeed not a seed. -/
theorem C8_expand_excludes_seeds_witness :
    "b" ∈ (expandMemories wGetRels ["a"] 1).1 ∧ "b" ∉ ["a"] :=
  ⟨by decide, (C8_expand_excludes_seeds wGetRels ["a"] 1).1 "b" (by decide)⟩

/-- C10: for a memory whose `CreatedAt` is unset (the Go zero time), a
successful `CreateMemory` writes the zero time's Unix epoch into the
vector-store metadata's `created_at`, because the timestamps are assigned
only after the vector-store write; the stored epoch therefore differs from
the timestamp the returned memory carries (whenever the clock is not the
zero epoch). -/
theorem C10_stale_created_at_metadata (env : CreateMemoryEnv) (mem : Memory)
    (hunset : mem.createdAt = goZeroTimeUnix)
    (out : Memory × VectorWrite) (hok : createMemory env mem = .ok out) :
    out.2.metaCreatedAt = goZeroTimeUnix ∧
    out.1.createdAt = env.now ∧
    (env.now ≠ goZeroTimeUnix → out.2.metaCreatedAt ≠ out.1.createdAt) := by
  rcases createMemory_ok_spec env mem out hok with ⟨hmeta, hnow⟩
  rw [hunset] at hmeta
  refine ⟨hmeta, hnow, ?_⟩
  intro hne hcontra
  rw [hmeta, hnow] at hcontra
  exact hne hcontra.symm

/-- Witness for C10 at a concrete environment and a memory with unset
timestamps. -/
theorem C10_stale_created_at_metadata_witness :
    (memOf "m1" (1/2)).createdAt = goZeroTimeUnix ∧
    createMemory wCreateEnv (memOf "m1" (1/2)) = .ok (wFinalMem, wWrite) ∧
    (wFinalMem, wWrite).2.metaCreatedAt = goZeroTimeUnix := by
  refine ⟨rfl, rfl, ?_⟩
  exact (C10_stale_created_at_metadata wCreateEnv (memOf "m1" (1/2)) rfl _ rfl).1

end Alaala
